import Mathlib

/-!
# PingMesh — verification of the consensus, store and scheduler core

Shallow embedding of the Go sources of PingMesh:

* `internal/consensus` — `EvaluateQuorum`, `IncidentManager`
  (`GetOrCreateIncident`, `ConfirmIncident`, `ResolveIncident`);
* `internal/agent/agent.go` — `evaluateConsensus`, `evaluateMonitorConsensus`;
* `internal/agent/scheduler.go` — `executeCheck`;
* the SQLite store (`CountConsecutiveFailures`, `CountConsecutiveSuccesses`,
  `GetActiveIncident`, `ValidateAndConsumeToken`).

Conventions of the embedding:

* Go `int`/`int64` fields become `Int`; counts derived from list lengths
  become `Nat`.
* The `check_results` table is a list of rows kept newest-first per
  `(monitor_id, node_id)` pair, standing for `ORDER BY timestamp DESC`.
* The `incidents` table is a list of rows kept newest-first by `created_at`
  (`CreateIncident` prepends), standing for `ORDER BY created_at DESC`.
* SQL `UPDATE ... WHERE id = ?` becomes a map over the row list replacing
  every row whose key matches; the primary-key constraints of the schema
  (`incidents.id`, `join_tokens.token_hash`) appear as `Nodup` hypotheses
  where a proof needs them.
* `uuid.New()` and `time.Now()` become explicit `freshId` / `now`
  parameters.
* The `Alerter` is modelled by the list of transition events a tick emits:
  `SendAlert` corresponds to an event whose target status is `confirmed`,
  `SendRecovery` to one whose target status is `resolved`.
* Store errors, goroutine interleavings and float latencies are outside the
  model; every store call succeeds.
-/

/-- `model.CheckStatus` (`"up" | "down" | "degraded"`), the only values the
checkers produce. -/
inductive CheckStatus where
  | up
  | down
  | degraded
deriving DecidableEq, Repr

/-- `model.IncidentStatus` (`"suspect" | "confirmed" | "resolved"`). -/
inductive IncidentStatus where
  | suspect
  | confirmed
  | resolved
deriving DecidableEq, Repr

/-- `model.Node` — the fields consensus reads (identity and liveness). -/
structure Node where
  id : String
  status : String
deriving DecidableEq, Repr

/-- `model.Monitor` — the fields read by the scheduler and the consensus
engine. `checkType` and `quorumType` stay strings as in Go. -/
structure Monitor where
  id : String
  checkType : String
  intervalMs : Int
  timeoutMs : Int
  retries : Int
  failureThreshold : Int
  recoveryThreshold : Int
  quorumType : String
  quorumN : Int
  enabled : Bool
deriving DecidableEq, Repr

/-- `model.CheckResult` — one row of `check_results` (float latency and the
JSON details blob are not modelled). -/
structure CheckResult where
  monitorId : String
  nodeId : String
  status : CheckStatus
  statusCode : Int
  error : String
  timestamp : Int
deriving DecidableEq, Repr

/-- `model.Incident` — one row of `incidents`. Go's `int64` null columns
(`confirmed_at`, `resolved_at`) are `0` when unset, as in the Go struct. -/
structure Incident where
  id : String
  monitorId : String
  status : IncidentStatus
  startedAt : Int
  confirmedAt : Int
  resolvedAt : Int
  confirmingNodes : List String
  createdAt : Int
  updatedAt : Int
deriving DecidableEq, Repr

/-- One row of `join_tokens`. -/
structure JoinTokenRow where
  tokenHash : String
  expiresAt : Int
  used : Bool
  createdAt : Int
deriving DecidableEq, Repr

/-- `consensus.EvaluateQuorum` (internal/consensus, quorum.go): switch on the
quorum type; `majority` and the default arm use `failCount > totalCount/2`
with Go integer division, `n_of_m` uses `failCount >= quorumN`. The counts
are list lengths in every caller, hence `Nat`; `quorumN` is a raw config
`int`, hence `Int`. -/
def EvaluateQuorum (quorumType : String) (quorumN : Int)
    (failCount totalCount : Nat) : Bool :=
  if quorumType = "majority" then
    failCount > totalCount / 2
  else if quorumType = "n_of_m" then
    (failCount : Int) ≥ quorumN
  else
    failCount > totalCount / 2

/-- The row scan shared by `CountConsecutiveFailures`: walk the statuses
newest-first, counting until the first `up`. -/
def failStreak : List CheckStatus → Nat
  | [] => 0
  | s :: rest => if s = .up then 0 else failStreak rest + 1

/-- The row scan shared by `CountConsecutiveSuccesses`: walk the statuses
newest-first, counting while the status is `up`. -/
def successStreak : List CheckStatus → Nat
  | [] => 0
  | s :: rest => if s = .up then successStreak rest + 1 else 0

/-- `SELECT status FROM check_results WHERE monitor_id = ? AND node_id = ?
ORDER BY timestamp DESC` — the statuses of one pair, newest first. -/
def resultStatuses (results : List CheckResult) (monitorId nodeId : String) :
    List CheckStatus :=
  (results.filter fun r => r.monitorId = monitorId ∧ r.nodeId = nodeId).map
    (·.status)

/-- `SQLiteStore.CountConsecutiveFailures`: query the pair's statuses newest
first with `LIMIT 100`, then count contiguous non-`up` rows until the first
`up`. -/
def CountConsecutiveFailures (results : List CheckResult)
    (monitorId nodeId : String) : Nat :=
  failStreak ((resultStatuses results monitorId nodeId).take 100)

/-- `SQLiteStore.CountConsecutiveSuccesses`: query the pair's statuses newest
first with `LIMIT 100`, then count contiguous `up` rows until the first
non-`up`. -/
def CountConsecutiveSuccesses (results : List CheckResult)
    (monitorId nodeId : String) : Nat :=
  successStreak ((resultStatuses results monitorId nodeId).take 100)

/-- `SQLiteStore.ValidateAndConsumeToken`: one SQL statement
`UPDATE join_tokens SET used = 1 WHERE token_hash = ? AND used = 0 AND
expires_at > now`, returning whether any row was affected. The first
component is the returned boolean, the second the table afterwards. -/
def ValidateAndConsumeToken (tokens : List JoinTokenRow) (tokenHash : String)
    (now : Int) : Bool × List JoinTokenRow :=
  let hits := tokens.countP fun t =>
    t.tokenHash = tokenHash ∧ t.used = false ∧ t.expiresAt > now
  let updated := tokens.map fun t =>
    if t.tokenHash = tokenHash ∧ t.used = false ∧ t.expiresAt > now then
      { t with used := true }
    else t
  (hits > 0, updated)

/-- `SQLiteStore.GetActiveIncident`: `WHERE monitor_id = ? AND status !=
'resolved' ORDER BY created_at DESC LIMIT 1` over the newest-first row
list. -/
def GetActiveIncident (incidents : List Incident) (monitorId : String) :
    Option Incident :=
  incidents.find? fun i => i.monitorId = monitorId ∧ i.status ≠ .resolved

/-- `SQLiteStore.UpdateIncident`: `UPDATE incidents SET ... WHERE id = ?` —
replace every row whose `id` matches (the schema's primary key makes the
match unique). -/
def UpdateIncident (incidents : List Incident) (incident : Incident) :
    List Incident :=
  incidents.map fun i => if i.id = incident.id then incident else i

/-- `IncidentManager.GetOrCreateIncident`: return the active incident if one
exists, otherwise insert a fresh `suspect` incident (uuid `freshId`, all
timestamps `now`) and return it. -/
def GetOrCreateIncident (incidents : List Incident)
    (monitorId freshId : String) (now : Int) : Incident × List Incident :=
  match GetActiveIncident incidents monitorId with
  | some incident => (incident, incidents)
  | none =>
      let incident : Incident :=
        { id := freshId
          monitorId := monitorId
          status := .suspect
          startedAt := now
          confirmedAt := 0
          resolvedAt := 0
          confirmingNodes := []
          createdAt := now
          updatedAt := now }
      (incident, incident :: incidents)

/-- `IncidentManager.ConfirmIncident`: set status `confirmed`, stamp
`confirmed_at`/`updated_at`, record the confirming nodes, write back. -/
def ConfirmIncident (incidents : List Incident) (incident : Incident)
    (confirmingNodes : List String) (now : Int) : List Incident :=
  UpdateIncident incidents
    { incident with
      status := .confirmed
      confirmedAt := now
      confirmingNodes := confirmingNodes
      updatedAt := now }

/-- `IncidentManager.ResolveIncident`: set status `resolved`, stamp
`resolved_at`/`updated_at`, write back. -/
def ResolveIncident (incidents : List Incident) (incident : Incident)
    (now : Int) : List Incident :=
  UpdateIncident incidents
    { incident with
      status := .resolved
      resolvedAt := now
      updatedAt := now }

/-- One incident status transition performed by a consensus tick. An event
with `toStatus = confirmed` is exactly a `ConfirmIncident` + `SendAlert`
(`Alerter.OnConfirmed`) call; one with `toStatus = resolved` is exactly a
`ResolveIncident` + `SendRecovery` (`Alerter.OnResolved`) call. -/
structure TickEvent where
  monitorId : String
  incidentId : String
  fromStatus : IncidentStatus
  toStatus : IncidentStatus
deriving DecidableEq, Repr

/-- The failing-node collection of `Agent.evaluateMonitorConsensus`: the ids
of the online nodes whose consecutive-failure streak for the monitor is at
least `failure_threshold`, in online-node order. -/
def failingNodeIds (m : Monitor) (onlineNodes : List Node)
    (results : List CheckResult) : List String :=
  (onlineNodes.filter fun n =>
    (CountConsecutiveFailures results m.id n.id : Int) ≥ m.failureThreshold).map
    (·.id)

/-- The recovery count of `Agent.evaluateMonitorConsensus`: how many online
nodes have a consecutive-success streak of at least `recovery_threshold`. -/
def recoveryNodeCount (m : Monitor) (onlineNodes : List Node)
    (results : List CheckResult) : Nat :=
  (onlineNodes.filter fun n =>
    (CountConsecutiveSuccesses results m.id n.id : Int) ≥
      m.recoveryThreshold).length

/-- `Agent.evaluateMonitorConsensus` (internal/agent/agent.go): collect the
failing set; if the failure quorum is met, get-or-create the active incident
and, when it is `suspect`, confirm it and alert; otherwise, when an active
incident exists and the recovery quorum is met, resolve it and send the
recovery notification. Returns the incident table afterwards and the
transition events performed. -/
def evaluateMonitorConsensus (m : Monitor) (onlineNodes : List Node)
    (totalNodes : Nat) (results : List CheckResult)
    (incidents : List Incident) (freshId : String) (now : Int) :
    List Incident × List TickEvent :=
  let failing := failingNodeIds m onlineNodes results
  let quorumMet := EvaluateQuorum m.quorumType m.quorumN failing.length totalNodes
  if quorumMet then
    let got := GetOrCreateIncident incidents m.id freshId now
    if got.1.status = .suspect then
      (ConfirmIncident got.2 got.1 failing now,
       [{ monitorId := m.id
          incidentId := got.1.id
          fromStatus := .suspect
          toStatus := .confirmed }])
    else (got.2, [])
  else
    match GetActiveIncident incidents m.id with
    | none => (incidents, [])
    | some incident =>
        if EvaluateQuorum m.quorumType m.quorumN
            (recoveryNodeCount m onlineNodes results) totalNodes then
          (ResolveIncident incidents incident now,
           [{ monitorId := m.id
              incidentId := incident.id
              fromStatus := incident.status
              toStatus := .resolved }])
        else (incidents, [])

/-- The body of `Agent.evaluateConsensus`'s monitor loop: evaluate one
monitor against the incident table accumulated so far, appending the
events it performed. -/
def consensusStep (onlineNodes : List Node) (totalNodes : Nat)
    (results : List CheckResult) (freshIds : String → String) (now : Int)
    (acc : List Incident × List TickEvent) (m : Monitor) :
    List Incident × List TickEvent :=
  let step := evaluateMonitorConsensus m onlineNodes totalNodes results acc.1
    (freshIds m.id) now
  (step.1, acc.2 ++ step.2)

/-- `Agent.evaluateConsensus` (one consensus tick): take the enabled
monitors and the online nodes; if no node is online do nothing, otherwise
evaluate every monitor in turn against the shared incident table.
`freshIds` supplies the uuid minted for a monitor's created incident. -/
def evaluateConsensus (monitors : List Monitor) (onlineNodes : List Node)
    (results : List CheckResult) (incidents : List Incident)
    (freshIds : String → String) (now : Int) :
    List Incident × List TickEvent :=
  let totalNodes := onlineNodes.length
  if totalNodes = 0 then (incidents, [])
  else
    monitors.foldl (consensusStep onlineNodes totalNodes results freshIds now)
      (incidents, [])

/-- `n` consecutive consensus ticks over an unchanged result set and online
set (the `consensusLoop` with no writes in between): tick `0` first, then
the later ticks; the events of all ticks are concatenated in order. -/
def iterateConsensus (monitors : List Monitor) (onlineNodes : List Node)
    (results : List CheckResult) (freshIds : Nat → String → String)
    (times : Nat → Int) : Nat → List Incident → List Incident × List TickEvent
  | 0, incidents => (incidents, [])
  | n + 1, incidents =>
      let step := evaluateConsensus monitors onlineNodes results incidents
        (freshIds n) (times n)
      let rest := iterateConsensus monitors onlineNodes results freshIds times
        n step.1
      (rest.1, step.2 ++ rest.2)

/-- `checker.Result` — the fields the scheduler copies into the stored
`CheckResult` (float latency not modelled). -/
structure CheckerResult where
  status : CheckStatus
  statusCode : Int
  error : String
deriving DecidableEq, Repr

/-- The retry loop of `Scheduler.executeCheck`: attempts indexed from `i`
with `k` attempts remaining, carrying Go's `lastResult`/`lastErr` pair. A
`Check` call either errors (`Except.error`, after which the loop continues
with `lastResult = nil`) or yields a result; the loop stops early on the
first `up`. -/
def runCheckAttempts (check : Nat → Except String CheckerResult) :
    Nat → Nat → Option CheckerResult → Option String →
    Option CheckerResult × Option String
  | _, 0, last, lastErr => (last, lastErr)
  | i, k + 1, _, _ =>
      match check i with
      | .error e => runCheckAttempts check (i + 1) k none (some e)
      | .ok r =>
          if r.status = .up then (some r, none)
          else runCheckAttempts check (i + 1) k (some r) none

/-- `Scheduler.executeCheck` (internal/agent/scheduler.go), after the
overlap guard: reload the monitor fresh from the store (`monitor` is
`GetMonitor`'s answer; `none` covers both the error and the missing row);
skip when it is missing or no checker is registered for its check type; run
up to `max(retries, 1)` attempts; if no attempt produced a result,
synthesize a `down` result; stamp node id and time. The return value is the
`CheckResult` handed to `InsertCheckResult` (`none` = nothing persisted). -/
def executeCheck (monitor : Option Monitor)
    (registry : String → Option (Nat → Except String CheckerResult))
    (nodeId : String) (now : Int) : Option CheckResult :=
  match monitor with
  | none => none
  | some m =>
      match registry m.checkType with
      | none => none
      | some c =>
          let attempts := if m.retries < 1 then 1 else m.retries.toNat
          let out := runCheckAttempts c 0 attempts none none
          let r : CheckerResult :=
            match out.1 with
            | some r => r
            | none =>
                { status := .down
                  statusCode := 0
                  error := out.2.getD "all attempts failed" }
          some
            { monitorId := m.id
              nodeId := nodeId
              status := r.status
              statusCode := r.statusCode
              error := r.error
              timestamp := now }

/-! ## Derived predicates used by the statements -/

/-- No event of the list confirms an incident of the given monitor. -/
def noConfirmEventFor (events : List TickEvent) (monitorId : String) : Prop :=
  ∀ e ∈ events, e.monitorId = monitorId → e.toStatus ≠ .confirmed

instance (events : List TickEvent) (monitorId : String) :
    Decidable (noConfirmEventFor events monitorId) := by
  unfold noConfirmEventFor; infer_instance

/-- Every event of the list is one of the two legal lifecycle moves:
`suspect → confirmed` or `confirmed → resolved`. -/
def allowedTransitions (events : List TickEvent) : Prop :=
  ∀ e ∈ events,
    (e.fromStatus = .suspect ∧ e.toStatus = .confirmed) ∨
    (e.fromStatus = .confirmed ∧ e.toStatus = .resolved)

instance (events : List TickEvent) : Decidable (allowedTransitions events) := by
  unfold allowedTransitions; infer_instance

/-- Between ticks no stored incident is `suspect` (the coordinator confirms
a created incident within the tick that created it). -/
def noSuspectAtRest (incidents : List Incident) : Prop :=
  ∀ i ∈ incidents, i.status ≠ .suspect

instance (incidents : List Incident) : Decidable (noSuspectAtRest incidents) := by
  unfold noSuspectAtRest; infer_instance

/-- The data-model invariant "at most one non-resolved incident per
monitor", as a bound on the row count the active-incident query matches. -/
def atMostOneActive (incidents : List Incident) (monitorId : String) : Prop :=
  incidents.countP
    (fun i => i.monitorId = monitorId ∧ i.status ≠ .resolved) ≤ 1

/-! ## Fixtures: the cluster of §8's end-to-end scenarios (three online
nodes `A`, `B`, `C`; monitor `m1` with `failure_threshold = 3`,
`recovery_threshold = 2`, `quorum_type = majority`). -/

def fxNodes : List Node :=
  [{ id := "A", status := "online" },
   { id := "B", status := "online" },
   { id := "C", status := "online" }]

def fxMonitor : Monitor :=
  { id := "m1"
    checkType := "tcp"
    intervalMs := 60000
    timeoutMs := 5000
    retries := 1
    failureThreshold := 3
    recoveryThreshold := 2
    quorumType := "majority"
    quorumN := 0
    enabled := true }

def fxResult (nodeId : String) (status : CheckStatus) (timestamp : Int) :
    CheckResult :=
  { monitorId := "m1", nodeId := nodeId, status := status, statusCode := 0,
    error := "", timestamp := timestamp }

/-- Node `A` recorded four consecutive `down` results; `B` and `C` are
`up` (scenario 1 of §8, newest first). -/
def fxResultsOneFail : List CheckResult :=
  [fxResult "A" .down 40, fxResult "A" .down 30, fxResult "A" .down 20,
   fxResult "A" .down 10, fxResult "B" .up 40, fxResult "C" .up 40]

/-- All three nodes recorded three consecutive `down` results (scenario 2
of §8, newest first). -/
def fxResultsAllFail : List CheckResult :=
  [fxResult "A" .down 40, fxResult "A" .down 30, fxResult "A" .down 20,
   fxResult "B" .down 40, fxResult "B" .down 30, fxResult "B" .down 20,
   fxResult "C" .down 40, fxResult "C" .down 30, fxResult "C" .down 20]

/-- A uuid supply for the fixtures: the monitor id itself (fresh relative
to an empty incident table, and injective). -/
def fxSupply : String → String := fun monitorId => monitorId

/-- A checker registry for the scheduler fixtures: every check type maps to
a checker whose every attempt replies `up` with status code 200. -/
def fxRegistry : String → Option (Nat → Except String CheckerResult) :=
  fun _ => some fun _ => .ok { status := .up, statusCode := 200, error := "" }

/-- `fxMonitor` with `enabled = false`. -/
def fxDisabledMonitor : Monitor := { fxMonitor with enabled := false }

/-- A stored join-token table with one unused token whose hash is `h1` and
which expires at time 50. -/
def fxTokens : List JoinTokenRow :=
  [{ tokenHash := "h1", expiresAt := 50, used := false, createdAt := 0 }]

/-- A monitor is quiescent on an incident table (relative to fixed results
and online nodes) when evaluating it changes nothing: if its failure
quorum holds, an active non-suspect incident already exists; if not,
either no active incident exists or the recovery quorum fails. -/
def monitorQuiescent (m : Monitor) (onlineNodes : List Node)
    (totalNodes : Nat) (results : List CheckResult)
    (incidents : List Incident) : Prop :=
  (EvaluateQuorum m.quorumType m.quorumN
      (failingNodeIds m onlineNodes results).length totalNodes = true →
    ∃ i, GetActiveIncident incidents m.id = some i ∧ i.status ≠ .suspect)
  ∧ (EvaluateQuorum m.quorumType m.quorumN
      (failingNodeIds m onlineNodes results).length totalNodes = false →
    GetActiveIncident incidents m.id = none ∨
    EvaluateQuorum m.quorumType m.quorumN
      (recoveryNodeCount m onlineNodes results) totalNodes = false)

/-! ## Helper lemmas -/

theorem map_eq_self_of_eq {α : Type} (l : List α) (f : α → α)
    (h : ∀ a ∈ l, f a = a) : l.map f = l := by
  induction l with
  | nil => rfl
  | cons a t ih =>
      simp only [List.map_cons, h a (List.mem_cons_self a t),
        ih (fun b hb => h b (List.mem_cons_of_mem a hb))]

theorem failStreak_eq_takeWhile (l : List CheckStatus) :
    failStreak l = (l.takeWhile fun s => !(s == CheckStatus.up)).length := by
  induction l with
  | nil => rfl
  | cons s rest ih =>
      by_cases h : s = CheckStatus.up <;>
        simp [failStreak, List.takeWhile_cons, h, ih]

theorem failStreak_le_length (l : List CheckStatus) :
    failStreak l ≤ l.length := by
  induction l with
  | nil => exact Nat.le_refl 0
  | cons s rest ih =>
      by_cases h : s = CheckStatus.up
      · simp [failStreak, h]
      · simp [failStreak, h]
        omega

/-! ## Claim theorems -/

/-- Claim C5: for all counts, `majority` quorum holds iff the fail count
strictly exceeds half the online count under integer division (2 of 4 does
not qualify, 3 of 5 does), and `n_of_m` quorum holds iff the fail count is
at least `quorum_n`. -/
theorem EvaluateQuorum_majority_n_of_m (quorumN : Int) (f t : Nat) :
    (EvaluateQuorum "majority" quorumN f t = true ↔ f > t / 2)
    ∧ (EvaluateQuorum "n_of_m" quorumN f t = true ↔ (f : Int) ≥ quorumN)
    ∧ EvaluateQuorum "majority" 0 2 4 = false
    ∧ EvaluateQuorum "majority" 0 3 5 = true := by
  refine ⟨?_, ?_, by decide, by decide⟩ <;> simp [EvaluateQuorum]

/-- Claim C10: a quorum type that is neither `majority` nor `n_of_m` falls
back to the majority rule rather than failing or never meeting quorum. -/
theorem EvaluateQuorum_default_fallback (quorumType : String) (quorumN : Int)
    (f t : Nat) (hmaj : quorumType ≠ "majority")
    (hnm : quorumType ≠ "n_of_m") :
    EvaluateQuorum quorumType quorumN f t = true ↔ f > t / 2 := by
  simp [EvaluateQuorum, hmaj, hnm]

/-- Witness for C10 at the empty quorum type: `3` failing of `5` online
meets the fallback quorum. -/
theorem EvaluateQuorum_default_fallback_witness :
    EvaluateQuorum "" 7 3 5 = true ↔ 3 > 5 / 2 :=
  EvaluateQuorum_default_fallback "" 7 3 5 (by decide) (by decide)

/-- Claim C7: `CountConsecutiveFailures` scans the pair's results newest
first, returns the contiguous non-`up` count before the first `up` within a
cap of 100 scanned rows, returns 0 when the latest result is `up`, and a
`degraded` result counts toward the streak. -/
theorem CountConsecutiveFailures_spec (results : List CheckResult)
    (monitorId nodeId : String) :
    (CountConsecutiveFailures results monitorId nodeId =
      (((resultStatuses results monitorId nodeId).take 100).takeWhile
        fun s => !(s == CheckStatus.up)).length)
    ∧ CountConsecutiveFailures results monitorId nodeId ≤ 100
    ∧ ((resultStatuses results monitorId nodeId).head? = some .up →
        CountConsecutiveFailures results monitorId nodeId = 0)
    ∧ (∀ l : List CheckStatus, failStreak (.degraded :: l) = failStreak l + 1) := by
  refine ⟨failStreak_eq_takeWhile _, ?_, ?_, ?_⟩
  · calc failStreak ((resultStatuses results monitorId nodeId).take 100)
        ≤ ((resultStatuses results monitorId nodeId).take 100).length :=
          failStreak_le_length _
      _ ≤ 100 := List.length_take_le _ _
  · intro h
    rcases hl : resultStatuses results monitorId nodeId with _ | ⟨s, rest⟩
    · simp [CountConsecutiveFailures, hl, failStreak]
    · rw [hl] at h
      simp only [List.head?_cons, Option.some_inj] at h
      simp [CountConsecutiveFailures, hl, h, List.take_cons, failStreak]
  · intro l
    simp [failStreak]

/-- Witness for C7: in the single-vantage fixture node `B`'s latest result
is `up`, so its failure streak is 0. -/
theorem CountConsecutiveFailures_spec_witness :
    CountConsecutiveFailures fxResultsOneFail "m1" "B" = 0 :=
  (CountConsecutiveFailures_spec fxResultsOneFail "m1" "B").2.2.1 (by decide)

/-- Claim C9 counterexample: a monitor that is present but disabled is not
skipped by `executeCheck` — the checker is dispatched and a result is
produced for persistence, refuting "if the monitor is missing or is
disabled at that moment the check is skipped". -/
theorem executeCheck_disabled_still_persists :
    fxDisabledMonitor.enabled = false
    ∧ executeCheck (some fxDisabledMonitor) fxRegistry "A" 7 ≠ none := by
  decide

/-- Claim C9 as amended: `executeCheck` reloads the monitor fresh and skips
only when the monitor is missing (or no checker is registered); the
`enabled` flag is not consulted, so a disabled monitor behaves exactly like
an enabled one until `SyncMonitors` stops its ticker. -/
theorem executeCheck_skips_only_missing (m : Monitor)
    (registry : String → Option (Nat → Except String CheckerResult))
    (nodeId : String) (now : Int) (b : Bool) :
    executeCheck none registry nodeId now = none
    ∧ executeCheck (some { m with enabled := b }) registry nodeId now
        = executeCheck (some m) registry nodeId now :=
  ⟨rfl, rfl⟩

/-- Claim C3 counterexample: scenario 1 of §8 (node `A` with four
consecutive `down` results, `B` and `C` `up`, majority quorum over three
online nodes) — a consensus tick creates no incident at all, refuting
"after that tick an incident in at least the suspect state exists". -/
theorem consensusTick_oneFailing_createsNothing :
    (CountConsecutiveFailures fxResultsOneFail "m1" "A" : Int)
        ≥ fxMonitor.failureThreshold
    ∧ evaluateConsensus [fxMonitor] fxNodes fxResultsOneFail [] fxSupply 100
        = ([], []) := by
  decide

/-- Claim C3 as amended: a consensus tick creates an incident for a monitor
only when the failure quorum is met; when the quorum is not met and no
active incident exists, the tick leaves the incident table unchanged and
emits no event, even if some online node's streak reached the failure
threshold. -/
theorem consensusEval_noQuorum_noCreation (m : Monitor)
    (onlineNodes : List Node) (totalNodes : Nat) (results : List CheckResult)
    (incidents : List Incident) (freshId : String) (now : Int)
    (hq : EvaluateQuorum m.quorumType m.quorumN
        (failingNodeIds m onlineNodes results).length totalNodes = false)
    (hactive : GetActiveIncident incidents m.id = none) :
    evaluateMonitorConsensus m onlineNodes totalNodes results incidents
      freshId now = (incidents, []) := by
  simp [evaluateMonitorConsensus, hq, hactive]

/-- Witness for the amended C3 on scenario 1 of §8: one failing vantage of
three with majority quorum, no active incident — the tick is a no-op. -/
theorem consensusEval_noQuorum_noCreation_witness :
    evaluateMonitorConsensus fxMonitor fxNodes 3 fxResultsOneFail [] "m1" 100
      = ([], []) :=
  consensusEval_noQuorum_noCreation fxMonitor fxNodes 3 fxResultsOneFail []
    "m1" 100 (by decide) (by decide)

/-- Claim C6: under the schema's primary key on `token_hash` and a
monotone clock, `ValidateAndConsumeToken` returns true iff the token is
unused and unexpired at the moment of the call; a true return marks the
token used; a false return consumes nothing; and a second consume attempt
on the resulting table never returns true, so of two attempts at most one
succeeds. -/
theorem ValidateAndConsumeToken_spec (tokens : List JoinTokenRow)
    (tokenHash : String) (now1 now2 : Int) (hmono : now1 ≤ now2)
    (hpk : (tokens.map JoinTokenRow.tokenHash).Nodup) :
    ((ValidateAndConsumeToken tokens tokenHash now1).1 = true ↔
      ∃ t ∈ tokens,
        t.tokenHash = tokenHash ∧ t.used = false ∧ t.expiresAt > now1)
    ∧ ((ValidateAndConsumeToken tokens tokenHash now1).1 = true →
        ∀ t ∈ (ValidateAndConsumeToken tokens tokenHash now1).2,
          t.tokenHash = tokenHash → t.used = true)
    ∧ ((ValidateAndConsumeToken tokens tokenHash now1).1 = false →
        (ValidateAndConsumeToken tokens tokenHash now1).2 = tokens)
    ∧ (ValidateAndConsumeToken
        (ValidateAndConsumeToken tokens tokenHash now1).2
        tokenHash now2).1 = false := by
  refine ⟨?_, ?_, ?_, ?_⟩
  · simp [ValidateAndConsumeToken, List.countP_pos_iff]
  · intro ht
    simp only [ValidateAndConsumeToken, decide_eq_true_eq] at ht ⊢
    replace ht := List.countP_pos_iff.mp ht
    obtain ⟨u, hu, hcond⟩ := ht
    simp only [decide_eq_true_eq] at hcond
    intro t htmem hthash
    rw [List.mem_map] at htmem
    obtain ⟨t0, ht0, rfl⟩ := htmem
    by_cases hc : t0.tokenHash = tokenHash ∧ t0.used = false ∧
      t0.expiresAt > now1
    · simp [hc]
    · rw [if_neg hc] at hthash ⊢
      have hut : u = t0 :=
        List.inj_on_of_nodup_map hpk hu ht0 (by rw [hcond.1, hthash])
      exact absurd (hut ▸ hcond) hc
  · intro hf
    simp [ValidateAndConsumeToken] at hf ⊢
    apply map_eq_self_of_eq
    intro t ht
    rw [if_neg]
    intro hcond
    exact absurd (hf t ht hcond.1 hcond.2.1) (not_le.mpr hcond.2.2)
  · simp only [ValidateAndConsumeToken, decide_eq_false_iff_not]
    rw [Nat.not_lt, Nat.le_zero, List.countP_eq_zero]
    intro a hamem
    rw [List.mem_map] at hamem
    obtain ⟨t0, ht0, rfl⟩ := hamem
    by_cases hc : t0.tokenHash = tokenHash ∧ t0.used = false ∧
      t0.expiresAt > now1
    · simp [hc]
    · rw [if_neg hc]
      simp only [decide_eq_true_eq, not_and]
      intro hhash hused hexp
      exact hc ⟨hhash, hused, lt_of_le_of_lt hmono hexp⟩

/-- Witness for C6: the fixture token is consumed on the first attempt and
the second attempt fails. -/
theorem ValidateAndConsumeToken_spec_witness :
    (ValidateAndConsumeToken fxTokens "h1" 40).1 = true
    ∧ (ValidateAndConsumeToken (ValidateAndConsumeToken fxTokens "h1" 40).2
        "h1" 45).1 = false :=
  ⟨by decide,
   (ValidateAndConsumeToken_spec fxTokens "h1" 40 45 (by decide)
      (by decide)).2.2.2⟩

/-- Claim C2 counterexample: scenario 2 of §8 (all three nodes failing) —
the very first quorum-met tick leaves the incident `confirmed`, not
`suspect`, and already emits the `Alerter.OnConfirmed` event, refuting
"creates an incident in the suspect state and leaves it suspect at the end
of that tick". -/
theorem firstQuorumTick_not_left_suspect :
    ((GetActiveIncident
        (evaluateConsensus [fxMonitor] fxNodes fxResultsAllFail [] fxSupply
          100).1 "m1").map Incident.status ≠ some .suspect)
    ∧ ((GetActiveIncident
        (evaluateConsensus [fxMonitor] fxNodes fxResultsAllFail [] fxSupply
          100).1 "m1").map Incident.status = some .confirmed)
    ∧ (evaluateConsensus [fxMonitor] fxNodes fxResultsAllFail [] fxSupply
        100).2
      = [{ monitorId := "m1", incidentId := "m1", fromStatus := .suspect,
           toStatus := .confirmed }] := by
  decide

/-- Claim C2 as amended: for a monitor with no active incident, a single
tick on which the failure quorum is met creates the incident and
transitions it to `confirmed` within that same tick, recording the failing
set in `confirming_nodes` and invoking `Alerter.OnConfirmed` exactly once
on that same tick; no separate subsequent tick is involved. -/
theorem quorumTick_confirms_same_tick (m : Monitor) (onlineNodes : List Node)
    (totalNodes : Nat) (results : List CheckResult)
    (incidents : List Incident) (freshId : String) (now : Int)
    (hactive : GetActiveIncident incidents m.id = none)
    (hq : EvaluateQuorum m.quorumType m.quorumN
        (failingNodeIds m onlineNodes results).length totalNodes = true) :
    ∃ inc,
      GetActiveIncident (evaluateMonitorConsensus m onlineNodes totalNodes
          results incidents freshId now).1 m.id = some inc
      ∧ inc.status = .confirmed
      ∧ inc.id = freshId
      ∧ inc.confirmedAt = now
      ∧ inc.confirmingNodes = failingNodeIds m onlineNodes results
      ∧ (evaluateMonitorConsensus m onlineNodes totalNodes results incidents
          freshId now).2
        = [{ monitorId := m.id, incidentId := freshId,
             fromStatus := .suspect, toStatus := .confirmed }] := by
  simp only [evaluateMonitorConsensus, hq, if_true, GetOrCreateIncident,
    hactive, ConfirmIncident, UpdateIncident]
  simp [GetActiveIncident, List.find?_cons]

/-- A `some` answer of the active-incident query is a member of the table,
belongs to the monitor, and is not resolved. -/
theorem getActive_facts {incs : List Incident} {mid : String} {i : Incident}
    (h : GetActiveIncident incs mid = some i) :
    i ∈ incs ∧ i.monitorId = mid ∧ i.status ≠ .resolved := by
  have hm := List.mem_of_find?_eq_some h
  have hp := List.find?_some h
  simp only [decide_eq_true_eq] at hp
  exact ⟨hm, hp.1, hp.2⟩

theorem noSuspect_update {incs : List Incident} {inc : Incident}
    (h : ∀ i ∈ incs, i.id = inc.id ∨ i.status ≠ .suspect)
    (hinc : inc.status ≠ .suspect) :
    noSuspectAtRest (UpdateIncident incs inc) := by
  intro j hj
  rw [UpdateIncident, List.mem_map] at hj
  obtain ⟨x, hx, rfl⟩ := hj
  by_cases hid : x.id = inc.id
  · simpa [hid] using hinc
  · rcases h x hx with hcase | hcase
    · exact absurd hcase hid
    · simpa [hid] using hcase

/-- One monitor evaluation only performs legal transitions and leaves no
suspect incident behind, provided none was stored to begin with. -/
theorem evalMonitor_transitions (m : Monitor) (onlineNodes : List Node)
    (totalNodes : Nat) (results : List CheckResult) (incs : List Incident)
    (freshId : String) (now : Int) (hns : noSuspectAtRest incs) :
    allowedTransitions
      (evaluateMonitorConsensus m onlineNodes totalNodes results incs
        freshId now).2
    ∧ noSuspectAtRest
      (evaluateMonitorConsensus m onlineNodes totalNodes results incs
        freshId now).1 := by
  unfold evaluateMonitorConsensus
  cases hq : EvaluateQuorum m.quorumType m.quorumN
      (failingNodeIds m onlineNodes results).length totalNodes
  · simp only [hq, Bool.false_eq_true, if_false]
    cases hga : GetActiveIncident incs m.id with
    | none =>
        exact ⟨fun e he => absurd he (List.not_mem_nil e), hns⟩
    | some i =>
        cases hr : EvaluateQuorum m.quorumType m.quorumN
            (recoveryNodeCount m onlineNodes results) totalNodes
        · simp only [hr, Bool.false_eq_true, if_false]
          exact ⟨fun e he => absurd he (List.not_mem_nil e), hns⟩
        · simp only [hr, if_true]
          have hfacts := getActive_facts hga
          have hstat : i.status = .confirmed := by
            have h1 := hns i hfacts.1
            have h2 := hfacts.2.2
            cases h : i.status
            · exact absurd h h1
            · rfl
            · exact absurd h h2
          constructor
          · intro e he
            simp at he
            subst he
            exact Or.inr ⟨hstat, rfl⟩
          · apply noSuspect_update
            · intro j hj; exact Or.inr (hns j hj)
            · intro hcontra; cases hcontra
  · simp only [hq, if_true]
    unfold GetOrCreateIncident
    cases hga : GetActiveIncident incs m.id with
    | some i =>
        have hsusp : i.status ≠ .suspect := hns i (getActive_facts hga).1
        rw [if_neg hsusp]
        exact ⟨fun e he => absurd he (List.not_mem_nil e), hns⟩
    | none =>
        simp only [if_pos rfl]
        constructor
        · intro e he
          simp at he
          subst he
          exact Or.inl ⟨rfl, rfl⟩
        · apply noSuspect_update
          · intro i hi
            rcases List.mem_cons.mp hi with rfl | hmem
            · exact Or.inl rfl
            · exact Or.inr (hns i hmem)
          · intro hcontra; cases hcontra

/-- A tick with no online node is a no-op. -/
theorem evaluateConsensus_zero (monitors : List Monitor)
    (onlineNodes : List Node) (results : List CheckResult)
    (incidents : List Incident) (freshIds : String → String) (now : Int)
    (h0 : onlineNodes.length = 0) :
    evaluateConsensus monitors onlineNodes results incidents freshIds now
      = (incidents, []) := by
  unfold evaluateConsensus
  simp [h0]

/-- A tick with at least one online node is the monitor fold. -/
theorem evaluateConsensus_fold (monitors : List Monitor)
    (onlineNodes : List Node) (results : List CheckResult)
    (incidents : List Incident) (freshIds : String → String) (now : Int)
    (h0 : onlineNodes.length ≠ 0) :
    evaluateConsensus monitors onlineNodes results incidents freshIds now
      = monitors.foldl
          (consensusStep onlineNodes onlineNodes.length results freshIds now)
          (incidents, []) := by
  unfold evaluateConsensus
  simp [h0]

/-- Claim C4: the ticks of the consensus loop are the only incident
mutators; starting from any store with no suspect incident at rest (as a
fresh store trivially is, and as every tick re-establishes), every status
change a tick performs is `suspect → confirmed` or `confirmed → resolved`
— in particular `suspect → resolved` never occurs — and afterwards the
store again holds no suspect incident, so the property is preserved along
every reachable execution. -/
theorem incident_transitions_legal (monitors : List Monitor)
    (onlineNodes : List Node) (results : List CheckResult)
    (incidents : List Incident) (freshIds : String → String) (now : Int)
    (hns : noSuspectAtRest incidents) :
    allowedTransitions
      (evaluateConsensus monitors onlineNodes results incidents freshIds
        now).2
    ∧ noSuspectAtRest
      (evaluateConsensus monitors onlineNodes results incidents freshIds
        now).1 := by
  by_cases h0 : onlineNodes.length = 0
  · rw [evaluateConsensus_zero monitors onlineNodes results incidents
      freshIds now h0]
    exact ⟨fun e he => absurd he (List.not_mem_nil e), hns⟩
  · rw [evaluateConsensus_fold monitors onlineNodes results incidents
      freshIds now h0]
    have H : ∀ (ms : List Monitor) (acc : List Incident × List TickEvent),
        noSuspectAtRest acc.1 → allowedTransitions acc.2 →
        allowedTransitions
          (ms.foldl (consensusStep onlineNodes onlineNodes.length results
            freshIds now) acc).2
        ∧ noSuspectAtRest
          (ms.foldl (consensusStep onlineNodes onlineNodes.length results
            freshIds now) acc).1 := by
      intro ms
      induction ms with
      | nil => intro acc h1 h2; exact ⟨h2, h1⟩
      | cons m rest ih =>
          intro acc h1 h2
          rw [List.foldl_cons]
          apply ih
          · exact (evalMonitor_transitions m onlineNodes onlineNodes.length
              results acc.1 (freshIds m.id) now h1).2
          · intro e he
            rcases List.mem_append.mp he with h | h
            · exact h2 e h
            · exact (evalMonitor_transitions m onlineNodes onlineNodes.length
                results acc.1 (freshIds m.id) now h1).1 e h
    exact H monitors (incidents, []) hns
      (fun e he => absurd he (List.not_mem_nil e))

/-- Every event one monitor evaluation emits belongs to that monitor, and
can be a confirmation only when the monitor's failure quorum held. -/
theorem evalMonitor_event_source (m : Monitor) (onlineNodes : List Node)
    (totalNodes : Nat) (results : List CheckResult) (incs : List Incident)
    (freshId : String) (now : Int) {e : TickEvent}
    (he : e ∈ (evaluateMonitorConsensus m onlineNodes totalNodes results incs
      freshId now).2) :
    e.monitorId = m.id
    ∧ (e.toStatus = .confirmed →
        EvaluateQuorum m.quorumType m.quorumN
          (failingNodeIds m onlineNodes results).length totalNodes = true) := by
  unfold evaluateMonitorConsensus at he
  cases hq : EvaluateQuorum m.quorumType m.quorumN
      (failingNodeIds m onlineNodes results).length totalNodes
  · simp only [hq, Bool.false_eq_true, if_false] at he
    cases hga : GetActiveIncident incs m.id with
    | none => simp [hga] at he
    | some i =>
        cases hr : EvaluateQuorum m.quorumType m.quorumN
            (recoveryNodeCount m onlineNodes results) totalNodes
        · simp [hga, hr] at he
        · simp [hga, hr] at he
          subst he
          exact ⟨rfl, fun hc => absurd hc (by simp)⟩
  · simp only [hq, if_true] at he
    unfold GetOrCreateIncident at he
    cases hga : GetActiveIncident incs m.id with
    | none =>
        simp [hga] at he
        subst he
        exact ⟨rfl, fun _ => rfl⟩
    | some i =>
        by_cases hs : i.status = .suspect
        · simp [hga, hs] at he
          subst he
          exact ⟨rfl, fun _ => rfl⟩
        · simp [hga, hs] at he

/-- Every event a tick's monitor fold emits that is not already in the
accumulator comes from one of the folded monitors. -/
theorem foldl_event_source (onlineNodes : List Node) (totalNodes : Nat)
    (results : List CheckResult) (freshIds : String → String) (now : Int) :
    ∀ (ms : List Monitor) (acc : List Incident × List TickEvent)
      (e : TickEvent),
      e ∈ (ms.foldl (consensusStep onlineNodes totalNodes results freshIds
        now) acc).2 →
      e ∈ acc.2 ∨ ∃ m ∈ ms, e.monitorId = m.id ∧
        (e.toStatus = .confirmed →
          EvaluateQuorum m.quorumType m.quorumN
            (failingNodeIds m onlineNodes results).length totalNodes = true) := by
  intro ms
  induction ms with
  | nil => intro acc e he; exact Or.inl he
  | cons m rest ih =>
      intro acc e he
      rw [List.foldl_cons] at he
      rcases ih (consensusStep onlineNodes totalNodes results freshIds now
        acc m) e he with hacc | ⟨m', hm', hrest⟩
      · rcases List.mem_append.mp hacc with h | h
        · exact Or.inl h
        · exact Or.inr ⟨m, List.mem_cons_self m rest,
            evalMonitor_event_source m onlineNodes totalNodes results acc.1
              (freshIds m.id) now h⟩
      · exact Or.inr ⟨m', List.mem_cons_of_mem m hm', hrest⟩

/-- Claim C1: with `quorum_type = majority` over at least three online
nodes and exactly one online node whose consecutive-failure streak reached
`failure_threshold`, no consensus tick ever emits a confirmation
(`Alerter.OnConfirmed`) event for that monitor, for any number of ticks
over the unchanged inputs and from any incident state. -/
theorem singleVantage_never_confirmed (monitors : List Monitor)
    (onlineNodes : List Node) (results : List CheckResult)
    (freshIds : Nat → String → String) (times : Nat → Int) (mid : String)
    (hn : 3 ≤ onlineNodes.length)
    (hm : ∀ m ∈ monitors, m.id = mid →
      m.quorumType = "majority" ∧
      (failingNodeIds m onlineNodes results).length = 1) :
    ∀ (n : Nat) (incidents : List Incident),
      noConfirmEventFor
        (iterateConsensus monitors onlineNodes results freshIds times n
          incidents).2 mid := by
  intro n
  induction n with
  | zero =>
      intro incidents e he
      exact absurd he (List.not_mem_nil e)
  | succ k ih =>
      intro incidents e he hemid hconf
      simp only [iterateConsensus] at he
      rcases List.mem_append.mp he with hstep | hrest
      · have h0 : onlineNodes.length ≠ 0 := by omega
        rw [evaluateConsensus_fold monitors onlineNodes results incidents
          (freshIds k) (times k) h0] at hstep
        rcases foldl_event_source onlineNodes onlineNodes.length results
            (freshIds k) (times k) monitors (incidents, []) e hstep with
          habs | ⟨m, hmem, hemid2, hquorum⟩
        · exact absurd habs (List.not_mem_nil e)
        · have hprops := hm m hmem (by rw [← hemid2, hemid])
          have hq := hquorum hconf
          rw [hprops.1, hprops.2] at hq
          simp [EvaluateQuorum] at hq
          omega
      · exact ih _ e hrest hemid hconf

/-- Witness for C1 on scenario 1 of §8: four ticks over the single-vantage
failure never confirm an incident for monitor `m1`. -/
theorem singleVantage_never_confirmed_witness :
    noConfirmEventFor
      (iterateConsensus [fxMonitor] fxNodes fxResultsOneFail
        (fun _ => fxSupply) (fun _ => 100) 4 []).2 "m1" :=
  singleVantage_never_confirmed [fxMonitor] fxNodes fxResultsOneFail
    (fun _ => fxSupply) (fun _ => 100) "m1" (by decide) (by decide) 4 []

/-- Witness for C4 on scenario 2 of §8: the fully-failing tick from an
empty incident table performs only legal transitions and leaves no suspect
incident. -/
theorem incident_transitions_legal_witness :
    allowedTransitions
      (evaluateConsensus [fxMonitor] fxNodes fxResultsAllFail [] fxSupply
        100).2
    ∧ noSuspectAtRest
      (evaluateConsensus [fxMonitor] fxNodes fxResultsAllFail [] fxSupply
        100).1 :=
  incident_transitions_legal [fxMonitor] fxNodes fxResultsAllFail [] fxSupply
    100 (by decide)

/-- Witness for the amended C2 on scenario 2 of §8. -/
theorem quorumTick_confirms_same_tick_witness :
    ∃ inc,
      GetActiveIncident (evaluateMonitorConsensus fxMonitor fxNodes 3
          fxResultsAllFail [] "inc1" 100).1 "m1" = some inc
      ∧ inc.status = .confirmed
      ∧ inc.id = "inc1"
      ∧ inc.confirmedAt = 100
      ∧ inc.confirmingNodes = failingNodeIds fxMonitor fxNodes fxResultsAllFail
      ∧ (evaluateMonitorConsensus fxMonitor fxNodes 3 fxResultsAllFail []
          "inc1" 100).2
        = [{ monitorId := "m1", incidentId := "inc1",
             fromStatus := .suspect, toStatus := .confirmed }] :=
  quorumTick_confirms_same_tick fxMonitor fxNodes 3 fxResultsAllFail []
    "inc1" 100 (by decide) (by decide)

theorem getActive_cons_pos {x : Incident} (rest : List Incident) {mid : String}
    (h1 : x.monitorId = mid) (h2 : x.status ≠ .resolved) :
    GetActiveIncident (x :: rest) mid = some x := by
  have hp : x.monitorId = mid ∧ x.status ≠ IncidentStatus.resolved := ⟨h1, h2⟩
  exact List.find?_cons_of_pos _ (decide_eq_true hp)

theorem getActive_cons_neg {x : Incident} (rest : List Incident) {mid : String}
    (h : ¬(x.monitorId = mid ∧ x.status ≠ .resolved)) :
    GetActiveIncident (x :: rest) mid = GetActiveIncident rest mid :=
  List.find?_cons_of_neg _ (fun hb => h (of_decide_eq_true hb))

theorem update_cons (x : Incident) (rest : List Incident) (inc : Incident) :
    UpdateIncident (x :: rest) inc =
      (if x.id = inc.id then inc else x) :: UpdateIncident rest inc := rfl

theorem update_ids (incs : List Incident) (inc : Incident) :
    (UpdateIncident incs inc).map Incident.id = incs.map Incident.id := by
  induction incs with
  | nil => rfl
  | cons x rest ih =>
      rw [update_cons]
      simp only [List.map_cons, ih]
      by_cases h : x.id = inc.id
      · rw [if_pos h, h]
      · rw [if_neg h]

theorem update_not_mem {incs : List Incident} {inc : Incident}
    (h : inc.id ∉ incs.map Incident.id) : UpdateIncident incs inc = incs := by
  apply map_eq_self_of_eq
  intro a ha
  rw [if_neg]
  intro hcontra
  exact h (hcontra ▸ List.mem_map_of_mem Incident.id ha)

theorem countP_le_one_unique {α : Type} {l : List α} {p : α → Bool}
    (hone : l.countP p ≤ 1) {a b : α} (ha : a ∈ l) (hb : b ∈ l)
    (hpa : p a = true) (hpb : p b = true) : a = b := by
  induction l with
  | nil => exact absurd ha (List.not_mem_nil a)
  | cons x rest ih =>
      rw [List.countP_cons] at hone
      rcases List.mem_cons.mp ha with rfl | ha2
      · rcases List.mem_cons.mp hb with rfl | hb2
        · rfl
        · exfalso
          have h1 : 0 < rest.countP p := List.countP_pos_iff.mpr ⟨b, hb2, hpb⟩
          rw [hpa, if_pos rfl] at hone
          omega
      · rcases List.mem_cons.mp hb with rfl | hb2
        · exfalso
          have h1 : 0 < rest.countP p := List.countP_pos_iff.mpr ⟨a, ha2, hpa⟩
          rw [hpb, if_pos rfl] at hone
          omega
        · exact ih (by omega) ha2 hb2

theorem getActive_none_iff_countP {incs : List Incident} {mid : String} :
    GetActiveIncident incs mid = none ↔
      incs.countP (fun i => i.monitorId = mid ∧ i.status ≠ .resolved) = 0 := by
  rw [GetActiveIncident, List.find?_eq_none, List.countP_eq_zero]

theorem quiescent_eval_noop {m : Monitor} {onlineNodes : List Node}
    {totalNodes : Nat} {results : List CheckResult} {incs : List Incident}
    (hq : monitorQuiescent m onlineNodes totalNodes results incs)
    (freshId : String) (now : Int) :
    evaluateMonitorConsensus m onlineNodes totalNodes results incs freshId now
      = (incs, []) := by
  unfold evaluateMonitorConsensus
  cases hqq : EvaluateQuorum m.quorumType m.quorumN
      (failingNodeIds m onlineNodes results).length totalNodes
  · simp only [hqq, Bool.false_eq_true, if_false]
    rcases hq.2 hqq with hga | hr
    · rw [hga]
    · cases hga : GetActiveIncident incs m.id with
      | none => rfl
      | some i => rw [hr]; simp
  · simp only [hqq, if_true]
    obtain ⟨i, hga, hst⟩ := hq.1 hqq
    unfold GetOrCreateIncident
    rw [hga]
    simp [hst]

theorem evalMonitor_cases (m : Monitor) (onlineNodes : List Node)
    (totalNodes : Nat) (results : List CheckResult) (incs : List Incident)
    (freshId : String) (now : Int) :
    (evaluateMonitorConsensus m onlineNodes totalNodes results incs freshId
        now = (incs, [])
      ∧ monitorQuiescent m onlineNodes totalNodes results incs)
    ∨ (∃ i, GetActiveIncident incs m.id = some i ∧ i.status = .suspect ∧
        EvaluateQuorum m.quorumType m.quorumN
          (failingNodeIds m onlineNodes results).length totalNodes = true ∧
        evaluateMonitorConsensus m onlineNodes totalNodes results incs freshId
          now =
          (UpdateIncident incs
            { i with
              status := .confirmed
              confirmedAt := now
              confirmingNodes := failingNodeIds m onlineNodes results
              updatedAt := now },
           [{ monitorId := m.id
              incidentId := i.id
              fromStatus := .suspect
              toStatus := .confirmed }]))
    ∨ (GetActiveIncident incs m.id = none ∧
        EvaluateQuorum m.quorumType m.quorumN
          (failingNodeIds m onlineNodes results).length totalNodes = true ∧
        evaluateMonitorConsensus m onlineNodes totalNodes results incs freshId
          now =
          ({ id := freshId
             monitorId := m.id
             status := .confirmed
             startedAt := now
             confirmedAt := now
             resolvedAt := 0
             confirmingNodes := failingNodeIds m onlineNodes results
             createdAt := now
             updatedAt := now } ::
            UpdateIncident incs
              { id := freshId
                monitorId := m.id
                status := .confirmed
                startedAt := now
                confirmedAt := now
                resolvedAt := 0
                confirmingNodes := failingNodeIds m onlineNodes results
                createdAt := now
                updatedAt := now },
           [{ monitorId := m.id
              incidentId := freshId
              fromStatus := .suspect
              toStatus := .confirmed }]))
    ∨ (∃ i, GetActiveIncident incs m.id = some i ∧
        EvaluateQuorum m.quorumType m.quorumN
          (failingNodeIds m onlineNodes results).length totalNodes = false ∧
        EvaluateQuorum m.quorumType m.quorumN
          (recoveryNodeCount m onlineNodes results) totalNodes = true ∧
        evaluateMonitorConsensus m onlineNodes totalNodes results incs freshId
          now =
          (UpdateIncident incs
            { i with
              status := .resolved
              resolvedAt := now
              updatedAt := now },
           [{ monitorId := m.id
              incidentId := i.id
              fromStatus := i.status
              toStatus := .resolved }])) := by
  cases hqq : EvaluateQuorum m.quorumType m.quorumN
      (failingNodeIds m onlineNodes results).length totalNodes
  · cases hga : GetActiveIncident incs m.id with
    | none =>
        refine Or.inl ⟨?_, fun ht => absurd (hqq ▸ ht) (by simp),
          fun _ => Or.inl hga⟩
        unfold evaluateMonitorConsensus
        simp only [hqq, Bool.false_eq_true, if_false]
        rw [hga]
    | some i =>
        cases hr : EvaluateQuorum m.quorumType m.quorumN
            (recoveryNodeCount m onlineNodes results) totalNodes
        · refine Or.inl ⟨?_, fun ht => absurd (hqq ▸ ht) (by simp),
            fun _ => Or.inr hr⟩
          unfold evaluateMonitorConsensus
          simp only [hqq, Bool.false_eq_true, if_false]
          rw [hga, hr]
          simp
        · refine Or.inr (Or.inr (Or.inr ⟨i, rfl, rfl, rfl, ?_⟩))
          unfold evaluateMonitorConsensus
          simp only [hqq, Bool.false_eq_true, if_false]
          rw [hga, hr]
          simp [ResolveIncident]
  · cases hga : GetActiveIncident incs m.id with
    | none =>
        refine Or.inr (Or.inr (Or.inl ⟨rfl, rfl, ?_⟩))
        unfold evaluateMonitorConsensus GetOrCreateIncident
        simp only [hqq, if_true]
        rw [hga]
        simp only [if_pos rfl]
        rw [ConfirmIncident, update_cons, if_pos rfl]
        rfl
    | some i =>
        by_cases hs : i.status = .suspect
        · refine Or.inr (Or.inl ⟨i, rfl, hs, rfl, ?_⟩)
          unfold evaluateMonitorConsensus GetOrCreateIncident
          simp only [hqq, if_true]
          rw [hga]
          simp only [hs, if_pos rfl]
          rfl
        · refine Or.inl ⟨?_, fun _ => ⟨i, hga, hs⟩,
            fun hf => absurd (hqq ▸ hf) (by simp)⟩
          unfold evaluateMonitorConsensus GetOrCreateIncident
          simp only [hqq, if_true]
          rw [hga]
          simp [hs]

theorem getActive_update_found {incs : List Incident} {mid : String}
    {a : Incident} (inc : Incident)
    (hfind : GetActiveIncident incs mid = some a)
    (hid : inc.id = a.id) (hmid : inc.monitorId = mid)
    (hns : inc.status ≠ .resolved) :
    GetActiveIncident (UpdateIncident incs inc) mid = some inc := by
  induction incs with
  | nil => simp [GetActiveIncident] at hfind
  | cons x rest ih =>
      rw [update_cons]
      by_cases hpx : x.monitorId = mid ∧ x.status ≠ .resolved
      · have hax : a = x := by
          rw [getActive_cons_pos rest hpx.1 hpx.2] at hfind
          exact (Option.some_inj.mp hfind).symm
        subst hax
        rw [if_pos hid.symm]
        exact getActive_cons_pos _ hmid hns
      · rw [getActive_cons_neg rest hpx] at hfind
        by_cases hxid : x.id = inc.id
        · rw [if_pos hxid]
          exact getActive_cons_pos _ hmid hns
        · rw [if_neg hxid, getActive_cons_neg _ hpx]
          exact ih hfind

theorem mem_cons_id_unique {x a : Incident} {rest : List Incident}
    (hids : ((x :: rest).map Incident.id).Nodup)
    (ha : a ∈ x :: rest) (haid : a.id = x.id) : a = x := by
  rcases List.mem_cons.mp ha with rfl | h2
  · rfl
  · exfalso
    rw [List.map_cons, List.nodup_cons] at hids
    exact hids.1 (haid ▸ List.mem_map_of_mem Incident.id h2)

theorem getActive_update_congr {incs : List Incident} {mid : String}
    {a inc : Incident} (hids : (incs.map Incident.id).Nodup)
    (ha : a ∈ incs) (haid : inc.id = a.id)
    (hamid : ¬(a.monitorId = mid ∧ a.status ≠ .resolved))
    (hincmid : ¬(inc.monitorId = mid ∧ inc.status ≠ .resolved)) :
    GetActiveIncident (UpdateIncident incs inc) mid
      = GetActiveIncident incs mid := by
  induction incs with
  | nil => rfl
  | cons x rest ih =>
      rw [update_cons]
      by_cases hxid : x.id = inc.id
      · have hax : a = x := mem_cons_id_unique hids ha (haid ▸ hxid.symm)
        subst hax
        rw [if_pos hxid]
        rw [getActive_cons_neg _ hincmid, getActive_cons_neg _ hamid]
        have hnotin : inc.id ∉ rest.map Incident.id := by
          rw [List.map_cons, List.nodup_cons] at hids
          rw [haid]
          exact hids.1
        rw [update_not_mem hnotin]
      · rw [if_neg hxid]
        by_cases hpx : x.monitorId = mid ∧ x.status ≠ .resolved
        · rw [getActive_cons_pos _ hpx.1 hpx.2,
            getActive_cons_pos _ hpx.1 hpx.2]
        · rw [getActive_cons_neg _ hpx, getActive_cons_neg _ hpx]
          have ha2 : a ∈ rest := by
            rcases List.mem_cons.mp ha with rfl | h2
            · exact absurd (haid.symm) hxid
            · exact h2
          rw [List.map_cons, List.nodup_cons] at hids
          exact ih hids.2 ha2

theorem getActive_update_resolved {incs : List Incident} {mid : String}
    {i res : Incident} (hone : atMostOneActive incs mid)
    (hfind : GetActiveIncident incs mid = some i)
    (hid : res.id = i.id) (hstat : res.status = .resolved) :
    GetActiveIncident (UpdateIncident incs res) mid = none := by
  rw [GetActiveIncident, List.find?_eq_none]
  intro x hx
  rw [UpdateIncident, List.mem_map] at hx
  obtain ⟨x0, hx0, rfl⟩ := hx
  by_cases hc : x0.id = res.id
  · rw [if_pos hc]
    simp [hstat]
  · rw [if_neg hc]
    intro hpx
    have hp := of_decide_eq_true hpx
    have hifacts := getActive_facts hfind
    have hx0i : x0 = i := countP_le_one_unique hone hx0 hifacts.1
      (decide_eq_true hp) (decide_eq_true ⟨hifacts.2.1, hifacts.2.2⟩)
    exact hc (by rw [hx0i, ← hid])

theorem countP_update_le {incs : List Incident} {inc a : Incident}
    (hids : (incs.map Incident.id).Nodup) (ha : a ∈ incs)
    (haid : inc.id = a.id) (p : Incident → Bool)
    (himp : p inc = true → p a = true) :
    (UpdateIncident incs inc).countP p ≤ incs.countP p := by
  induction incs with
  | nil => exact Nat.le_refl _
  | cons x rest ih =>
      rw [update_cons, List.countP_cons, List.countP_cons]
      by_cases hxid : x.id = inc.id
      · have hax : a = x := mem_cons_id_unique hids ha (haid ▸ hxid.symm)
        subst hax
        rw [if_pos hxid]
        have hnotin : inc.id ∉ rest.map Incident.id := by
          rw [List.map_cons, List.nodup_cons] at hids
          rw [haid]
          exact hids.1
        rw [update_not_mem hnotin]
        have hite : (if p inc = true then 1 else 0)
            ≤ (if p a = true then 1 else 0) := by
          by_cases hpi : p inc = true
          · rw [if_pos hpi, if_pos (himp hpi)]
          · rw [if_neg hpi]
            exact Nat.zero_le _
        exact Nat.add_le_add_left hite _
      · rw [if_neg hxid]
        have ha2 : a ∈ rest := by
          rcases List.mem_cons.mp ha with rfl | h2
          · exact absurd (haid.symm) hxid
          · exact h2
        rw [List.map_cons, List.nodup_cons] at hids
        exact Nat.add_le_add_right (ih hids.2 ha2) _

theorem quiescent_after_eval (m : Monitor) (onlineNodes : List Node)
    (totalNodes : Nat) (results : List CheckResult) (incs : List Incident)
    (freshId : String) (now : Int)
    (hone : atMostOneActive incs m.id) :
    monitorQuiescent m onlineNodes totalNodes results
      (evaluateMonitorConsensus m onlineNodes totalNodes results incs
        freshId now).1 := by
  rcases evalMonitor_cases m onlineNodes totalNodes results incs freshId now
    with ⟨heq, hq⟩ | ⟨i, hga, hs, hqq, heq⟩ | ⟨hga, hqq, heq⟩ |
      ⟨i, hga, hqq, hr, heq⟩
  · rw [heq]
    exact hq
  · rw [heq]
    have hif := getActive_facts hga
    refine ⟨fun _ =>
      ⟨{ i with
          status := .confirmed
          confirmedAt := now
          confirmingNodes := failingNodeIds m onlineNodes results
          updatedAt := now }, ?_, ?_⟩,
      fun hf => absurd (hqq ▸ hf) (by simp)⟩
    · exact getActive_update_found _ hga rfl hif.2.1 (by simp)
    · simp
  · rw [heq]
    refine ⟨fun _ =>
      ⟨{ id := freshId
         monitorId := m.id
         status := .confirmed
         startedAt := now
         confirmedAt := now
         resolvedAt := 0
         confirmingNodes := failingNodeIds m onlineNodes results
         createdAt := now
         updatedAt := now }, ?_, ?_⟩,
      fun hf => absurd (hqq ▸ hf) (by simp)⟩
    · exact getActive_cons_pos _ rfl (by simp)
    · simp
  · rw [heq]
    refine ⟨fun ht => absurd (hqq ▸ ht) (by simp), fun _ => Or.inl ?_⟩
    exact getActive_update_resolved hone hga rfl rfl

theorem getActive_frame_after_eval (m : Monitor) (onlineNodes : List Node)
    (totalNodes : Nat) (results : List CheckResult) (incs : List Incident)
    (freshId : String) (now : Int) (mid : String)
    (hids : (incs.map Incident.id).Nodup)
    (hfresh : freshId ∉ incs.map Incident.id)
    (hmid : mid ≠ m.id) :
    GetActiveIncident
      (evaluateMonitorConsensus m onlineNodes totalNodes results incs
        freshId now).1 mid
      = GetActiveIncident incs mid := by
  rcases evalMonitor_cases m onlineNodes totalNodes results incs freshId now
    with ⟨heq, _⟩ | ⟨i, hga, hs, hqq, heq⟩ | ⟨hga, hqq, heq⟩ |
      ⟨i, hga, hqq, hr, heq⟩
  · rw [heq]
  · rw [heq]
    have hif := getActive_facts hga
    exact getActive_update_congr hids hif.1 rfl
      (fun hc => hmid (hif.2.1.symm.trans hc.1).symm)
      (fun hc => hmid (hif.2.1.symm.trans hc.1).symm)
  · rw [heq]
    rw [getActive_cons_neg _ (fun hc => hmid hc.1.symm)]
    rw [update_not_mem hfresh]
  · rw [heq]
    have hif := getActive_facts hga
    exact getActive_update_congr hids hif.1 rfl
      (fun hc => hmid (hif.2.1.symm.trans hc.1).symm)
      (fun hc => hmid (hif.2.1.symm.trans hc.1).symm)

theorem eval_preserves_inv (m : Monitor) (onlineNodes : List Node)
    (totalNodes : Nat) (results : List CheckResult) (incs : List Incident)
    (freshId : String) (now : Int)
    (hids : (incs.map Incident.id).Nodup)
    (hall : ∀ mid, atMostOneActive incs mid)
    (hfresh : freshId ∉ incs.map Incident.id) :
    (((evaluateMonitorConsensus m onlineNodes totalNodes results incs
        freshId now).1.map Incident.id).Nodup)
    ∧ (∀ mid, atMostOneActive
        (evaluateMonitorConsensus m onlineNodes totalNodes results incs
          freshId now).1 mid)
    ∧ (∀ x, x ∈ (evaluateMonitorConsensus m onlineNodes totalNodes results
          incs freshId now).1.map Incident.id →
        x = freshId ∨ x ∈ incs.map Incident.id) := by
  rcases evalMonitor_cases m onlineNodes totalNodes results incs freshId now
    with ⟨heq, _⟩ | ⟨i, hga, hs, hqq, heq⟩ | ⟨hga, hqq, heq⟩ |
      ⟨i, hga, hqq, hr, heq⟩
  · rw [heq]
    exact ⟨hids, hall, fun x hx => Or.inr hx⟩
  · rw [heq]
    have hif := getActive_facts hga
    refine ⟨by rw [update_ids]; exact hids, fun mid => ?_, fun x hx => ?_⟩
    · have hle := countP_update_le hids hif.1
        (show ({ i with status := IncidentStatus.confirmed, confirmedAt := now, confirmingNodes := failingNodeIds m onlineNodes results, updatedAt := now } : Incident).id = i.id from rfl)
        (fun j => decide (j.monitorId = mid ∧ j.status ≠ IncidentStatus.resolved))
        (fun hpc => decide_eq_true ⟨(of_decide_eq_true hpc).1, hif.2.2⟩)
      exact Nat.le_trans hle (hall mid)
    · rw [update_ids] at hx
      exact Or.inr hx
  · rw [heq]
    rw [update_not_mem hfresh]
    refine ⟨?_, fun mid => ?_, fun x hx => ?_⟩
    · rw [List.map_cons]
      exact List.nodup_cons.mpr ⟨hfresh, hids⟩
    · rw [atMostOneActive, List.countP_cons]
      by_cases hmid : m.id = mid
      · have hzero : incs.countP
            (fun i => i.monitorId = mid ∧ i.status ≠ .resolved) = 0 := by
          rw [← hmid]
          exact getActive_none_iff_countP.mp hga
        rw [hzero]
        simp [hmid]
      · simpa [hmid, atMostOneActive] using hall mid
    · rw [List.map_cons] at hx
      rcases List.mem_cons.mp hx with rfl | h2
      · exact Or.inl rfl
      · exact Or.inr h2
  · rw [heq]
    have hif := getActive_facts hga
    refine ⟨by rw [update_ids]; exact hids, fun mid => ?_, fun x hx => ?_⟩
    · have hle := countP_update_le hids hif.1
        (show ({ i with status := IncidentStatus.resolved, resolvedAt := now, updatedAt := now } : Incident).id = i.id from rfl)
        (fun j => decide (j.monitorId = mid ∧ j.status ≠ IncidentStatus.resolved))
        (fun hpc => absurd rfl (of_decide_eq_true hpc).2)
      exact Nat.le_trans hle (hall mid)
    · rw [update_ids] at hx
      exact Or.inr hx

theorem quiescent_congr {m : Monitor} {onlineNodes : List Node}
    {totalNodes : Nat} {results : List CheckResult}
    {s1 s2 : List Incident}
    (h : GetActiveIncident s2 m.id = GetActiveIncident s1 m.id)
    (hq : monitorQuiescent m onlineNodes totalNodes results s1) :
    monitorQuiescent m onlineNodes totalNodes results s2 := by
  refine ⟨fun ht => ?_, fun hf => ?_⟩
  · obtain ⟨i, hi, hs⟩ := hq.1 ht
    exact ⟨i, h.trans hi, hs⟩
  · rcases hq.2 hf with hnone | hr
    · exact Or.inl (h.trans hnone)
    · exact Or.inr hr

theorem fold_consensus_props (onlineNodes : List Node) (totalNodes : Nat)
    (results : List CheckResult) (freshIds : String → String) (now : Int)
    (hinj : ∀ a b : String, freshIds a = freshIds b → a = b) :
    ∀ (ms : List Monitor) (incs : List Incident) (evs : List TickEvent),
      (incs.map Incident.id).Nodup →
      (∀ mid, atMostOneActive incs mid) →
      (ms.map Monitor.id).Nodup →
      (∀ m ∈ ms, freshIds m.id ∉ incs.map Incident.id) →
      (∀ m ∈ ms, monitorQuiescent m onlineNodes totalNodes results
        (ms.foldl (consensusStep onlineNodes totalNodes results freshIds now)
          (incs, evs)).1)
      ∧ (((ms.foldl (consensusStep onlineNodes totalNodes results freshIds
            now) (incs, evs)).1.map Incident.id).Nodup)
      ∧ (∀ mid, atMostOneActive
          (ms.foldl (consensusStep onlineNodes totalNodes results freshIds
            now) (incs, evs)).1 mid)
      ∧ (∀ mid, mid ∉ ms.map Monitor.id →
          GetActiveIncident
            (ms.foldl (consensusStep onlineNodes totalNodes results freshIds
              now) (incs, evs)).1 mid
            = GetActiveIncident incs mid) := by
  intro ms
  induction ms with
  | nil =>
      intro incs evs h1 h2 h3 h4
      exact ⟨fun m hm => absurd hm (List.not_mem_nil m), h1, h2,
        fun mid _ => rfl⟩
  | cons m rest ih =>
      intro incs evs h1 h2 h3 h4
      rw [List.foldl_cons]
      have hinv := eval_preserves_inv m onlineNodes totalNodes results incs
        (freshIds m.id) now h1 h2 (h4 m (List.mem_cons_self m rest))
      rw [List.map_cons, List.nodup_cons] at h3
      have hfresh1 : ∀ m' ∈ rest, freshIds m'.id ∉
          ((evaluateMonitorConsensus m onlineNodes totalNodes results incs
            (freshIds m.id) now).1.map Incident.id) := by
        intro m' hm' hmem
        rcases hinv.2.2 _ hmem with heqf | hmem2
        · exact h3.1 ((hinj _ _ heqf) ▸ List.mem_map_of_mem Monitor.id hm')
        · exact h4 m' (List.mem_cons_of_mem m hm') hmem2
      have ihr := ih
        (evaluateMonitorConsensus m onlineNodes totalNodes results incs
          (freshIds m.id) now).1
        (evs ++ (evaluateMonitorConsensus m onlineNodes totalNodes results
          incs (freshIds m.id) now).2)
        hinv.1 hinv.2.1 h3.2 hfresh1
      refine ⟨?_, ihr.2.1, ihr.2.2.1, ?_⟩
      · intro m' hm'
        rcases List.mem_cons.mp hm' with rfl | hm2
        · have hqu := quiescent_after_eval m' onlineNodes totalNodes results
            incs (freshIds m'.id) now (h2 m'.id)
          exact quiescent_congr (ihr.2.2.2 m'.id h3.1) hqu
        · exact ihr.1 m' hm2
      · intro mid hmid
        rw [List.map_cons, List.mem_cons] at hmid
        push_neg at hmid
        have hstep := getActive_frame_after_eval m onlineNodes totalNodes
          results incs (freshIds m.id) now mid h1
          (h4 m (List.mem_cons_self m rest)) hmid.1
        exact (ihr.2.2.2 mid hmid.2).trans hstep

theorem fold_noop (onlineNodes : List Node) (totalNodes : Nat)
    (results : List CheckResult) (freshIds : String → String) (now : Int) :
    ∀ (ms : List Monitor) (incs : List Incident) (evs : List TickEvent),
      (∀ m ∈ ms, monitorQuiescent m onlineNodes totalNodes results incs) →
      ms.foldl (consensusStep onlineNodes totalNodes results freshIds now)
        (incs, evs) = (incs, evs) := by
  intro ms
  induction ms with
  | nil => intro incs evs _; rfl
  | cons m rest ih =>
      intro incs evs hq
      rw [List.foldl_cons]
      have hstep : consensusStep onlineNodes totalNodes results freshIds now
          (incs, evs) m = (incs, evs) := by
        unfold consensusStep
        rw [quiescent_eval_noop (hq m (List.mem_cons_self m rest))]
        simp
      rw [hstep]
      exact ih incs evs (fun m' hm' => hq m' (List.mem_cons_of_mem m hm'))

/-- Claim C8: consensus evaluation is idempotent on incidents — under the
schema's primary keys (distinct incident ids, distinct monitor ids), the
data-model invariant of at most one active incident per monitor, and a
fresh injective uuid supply, running a second tick over an unchanged
result set and online set right after a first tick leaves the incident
table exactly as the first tick left it and emits no events. -/
theorem consensus_tick_idempotent (monitors : List Monitor)
    (onlineNodes : List Node) (results : List CheckResult)
    (incidents : List Incident) (freshIds : String → String) (now : Int)
    (hids : (incidents.map Incident.id).Nodup)
    (hone : ∀ mid, atMostOneActive incidents mid)
    (hmon : (monitors.map Monitor.id).Nodup)
    (hfresh : ∀ m ∈ monitors, freshIds m.id ∉ incidents.map Incident.id)
    (hinj : ∀ a b : String, freshIds a = freshIds b → a = b) :
    ∀ (freshIds2 : String → String) (now2 : Int),
      evaluateConsensus monitors onlineNodes results
        (evaluateConsensus monitors onlineNodes results incidents freshIds
          now).1 freshIds2 now2
      = ((evaluateConsensus monitors onlineNodes results incidents freshIds
          now).1, []) := by
  intro freshIds2 now2
  by_cases h0 : onlineNodes.length = 0
  · rw [evaluateConsensus_zero monitors onlineNodes results incidents
      freshIds now h0]
    exact evaluateConsensus_zero monitors onlineNodes results incidents
      freshIds2 now2 h0
  · have hfold := evaluateConsensus_fold monitors onlineNodes results
      incidents freshIds now h0
    rw [hfold]
    rw [evaluateConsensus_fold monitors onlineNodes results _ freshIds2
      now2 h0]
    have hprops := fold_consensus_props onlineNodes onlineNodes.length
      results freshIds now hinj monitors incidents [] hids hone hmon hfresh
    exact fold_noop onlineNodes onlineNodes.length results freshIds2 now2
      monitors _ [] hprops.1

/-- Witness for C8 on scenario 2 of §8: after the fully-failing tick, a
second tick (with a different clock) changes nothing and emits nothing. -/
theorem consensus_tick_idempotent_witness :
    evaluateConsensus [fxMonitor] fxNodes fxResultsAllFail
      (evaluateConsensus [fxMonitor] fxNodes fxResultsAllFail [] fxSupply
        100).1 fxSupply 200
    = ((evaluateConsensus [fxMonitor] fxNodes fxResultsAllFail [] fxSupply
        100).1, []) :=
  consensus_tick_idempotent [fxMonitor] fxNodes fxResultsAllFail [] fxSupply
    100 (by simp) (fun _ => Nat.zero_le 1) (by simp)
    (fun _ _ => List.not_mem_nil _) (fun _ _ h => h) fxSupply 200
